import Mathlib

/-!
# Verification of the betedge rust_parser core pipeline

Shallow embedding of the decode → build → filter pipeline from
`rust_parser/src/{types.rs, parser.rs, filter.rs}`.

Modelling conventions:
* Rust `u32`/`u16`/`u8`/`usize` integers are `Nat` (with explicit `% 2^16`
  / `% 2^8` where the source performs a narrowing `as` cast).
* Rust `i64`/`i32` integers and day counts are `Int`.
* `f32`/`f64` prices carried through the pipeline are modelled exactly:
  stored values as `ℚ`, and the threshold computation (which involves a
  square root) as `ℝ`; float rounding is not modelled.
* `chrono::NaiveDate` is modelled by a year/month/day record together with
  `from_ymd_opt` (calendar validation including chrono's maximum year
  262143; negative years cannot arise from `u32` inputs) and a
  days-since-epoch function, so that date subtraction `num_days` is the
  difference of day numbers.
* `arrow::RecordBatch` is a row count plus named, typed columns;
  `HashMap<u32, f32>` is an association list with distinct keys where
  `insert` overwrites an existing binding (last write wins).
* Fallible Rust functions returning `Result` become `Except String`.
-/

set_option maxRecDepth 4000

namespace Betedge

/-! ## Tick and contract records (`types.rs`)

`JsonTick` and `JsonStockTick` are two Rust structs with the same ten
positional fields and identical `TickData` impls; we model the shared
shape once.  The named fields are the `TickData` accessor names. -/

structure Tick where
  ms_of_day : Nat
  bid_size : Nat
  bid_exchange : Nat
  bid_price : ℚ
  bid_condition : Nat
  ask_size : Nat
  ask_exchange : Nat
  ask_price : ℚ
  ask_condition : Nat
  date : Nat
deriving DecidableEq, Repr

abbrev JsonTick := Tick
abbrev JsonStockTick := Tick

structure JsonContract where
  root : String
  expiration : Nat
  strike : Nat
  right : String
deriving DecidableEq, Repr

structure JsonEntry where
  ticks : List JsonTick
  contract : JsonContract
deriving DecidableEq, Repr

/-- Option document (the ignored `header` field is omitted). -/
structure JsonResponse where
  response : List JsonEntry
deriving DecidableEq, Repr

/-- Underlying (stock) document (the ignored `header` field is omitted). -/
structure JsonStockResponse where
  response : List JsonStockTick
deriving DecidableEq, Repr

/-! ## Arrow columns and record batches -/

/-- A typed Arrow column.  Unsigned integer columns of any width store
`Nat` values (the width is the tag); float columns store the exact `ℚ`
value of the stored `f32`. -/
inductive Col where
  | u32 : List Nat → Col
  | u16 : List Nat → Col
  | u8 : List Nat → Col
  | f32 : List ℚ → Col
  | str : List String → Col
deriving DecidableEq, Repr

/-- Element type of a column (the Arrow `DataType`). -/
inductive ColType where
  | u32 | u16 | u8 | f32 | str
deriving DecidableEq, Repr

def Col.type : Col → ColType
  | .u32 _ => .u32
  | .u16 _ => .u16
  | .u8 _ => .u8
  | .f32 _ => .f32
  | .str _ => .str

def Col.length : Col → Nat
  | .u32 xs => xs.length
  | .u16 xs => xs.length
  | .u8 xs => xs.length
  | .f32 xs => xs.length
  | .str xs => xs.length

/-- Downcast to `UInt32Array` (`as_any().downcast_ref::<UInt32Array>()`). -/
def Col.asU32 : Col → Option (List Nat)
  | .u32 xs => some xs
  | _ => none

/-- Downcast to `StringArray`. -/
def Col.asStr : Col → Option (List String)
  | .str xs => some xs
  | _ => none

/-- Downcast to `UInt16Array`. -/
def Col.asU16 : Col → Option (List Nat)
  | .u16 xs => some xs
  | _ => none

/-- Downcast to `UInt8Array`. -/
def Col.asU8 : Col → Option (List Nat)
  | .u8 xs => some xs
  | _ => none

/-- An `arrow::RecordBatch`: a row count plus named columns.  (Arrow
enforces that every column's length equals the row count; we carry that
invariant as the separate predicate `WellFormed`.) -/
structure RecordBatch where
  numRows : Nat
  columns : List (String × Col)
deriving DecidableEq, Repr

/-- The arrow invariant established by `RecordBatch::try_new`: every
column has exactly `numRows` elements. -/
def WellFormed (b : RecordBatch) : Prop :=
  ∀ p ∈ b.columns, Col.length p.2 = b.numRows

instance (b : RecordBatch) : Decidable (WellFormed b) :=
  inferInstanceAs (Decidable (∀ p ∈ b.columns, Col.length p.2 = b.numRows))

/-- `batch.column_by_name(name)`: the first column carrying `name`. -/
def column_by_name (b : RecordBatch) (name : String) : Option Col :=
  (b.columns.find? (fun p => p.1 = name)).map (fun p => p.2)

/-- Lookup a column by name and downcast it to `UInt32Array`. -/
def getU32 (b : RecordBatch) (name : String) : Option (List Nat) :=
  (column_by_name b name).bind Col.asU32

/-- Lookup a column by name and downcast it to `StringArray`. -/
def getStr (b : RecordBatch) (name : String) : Option (List String) :=
  (column_by_name b name).bind Col.asStr

/-- Lookup a column by name and downcast it to `UInt16Array`. -/
def getU16 (b : RecordBatch) (name : String) : Option (List Nat) :=
  (column_by_name b name).bind Col.asU16

/-- Lookup a column by name and downcast it to `UInt8Array`. -/
def getU8 (b : RecordBatch) (name : String) : Option (List Nat) :=
  (column_by_name b name).bind Col.asU8

/-- The schema of a batch: column names with their element types. -/
def RecordBatch.schema (b : RecordBatch) : List (String × ColType) :=
  b.columns.map (fun p => (p.1, p.2.type))

/-- `create_tick_schema` from `types.rs`: the fixed 14-column layout. -/
def create_tick_schema : List (String × ColType) :=
  [("ms_of_day", .u32), ("bid_size", .u16), ("bid_exchange", .u8),
   ("bid_price", .f32), ("bid_condition", .u8), ("ask_size", .u16),
   ("ask_exchange", .u8), ("ask_price", .f32), ("ask_condition", .u8),
   ("date", .u32), ("root", .str), ("expiration", .u32),
   ("strike", .u32), ("right", .str)]

/-! ## The tick batch builder (`types.rs`) -/

structure TickBatchBuilder where
  ms_of_day : List Nat
  bid_size : List Nat
  bid_exchange : List Nat
  bid_price : List ℚ
  bid_condition : List Nat
  ask_size : List Nat
  ask_exchange : List Nat
  ask_price : List ℚ
  ask_condition : List Nat
  date : List Nat
  root : List String
  expiration : List Nat
  strike : List Nat
  right : List String
deriving DecidableEq, Repr

namespace TickBatchBuilder

/-- `TickBatchBuilder::new(capacity)`; the capacity only pre-sizes
buffers and has no observable effect. -/
def new (_capacity : Nat) : TickBatchBuilder :=
  ⟨[], [], [], [], [], [], [], [], [], [], [], [], [], []⟩

/-- `append_tick`: appends one logical row across all 14 columns.  The
narrowing casts of the source (`as u16` on sizes, `as u8` on exchange and
condition codes) are the corresponding `% 2 ^ 16` / `% 2 ^ 8` truncations;
`as f32` on prices is modelled exactly. -/
def append_tick (b : TickBatchBuilder) (tick : Tick) (contract : JsonContract) :
    TickBatchBuilder where
  ms_of_day := b.ms_of_day ++ [tick.ms_of_day]
  bid_size := b.bid_size ++ [tick.bid_size % 2 ^ 16]
  bid_exchange := b.bid_exchange ++ [tick.bid_exchange % 2 ^ 8]
  bid_price := b.bid_price ++ [tick.bid_price]
  bid_condition := b.bid_condition ++ [tick.bid_condition % 2 ^ 8]
  ask_size := b.ask_size ++ [tick.ask_size % 2 ^ 16]
  ask_exchange := b.ask_exchange ++ [tick.ask_exchange % 2 ^ 8]
  ask_price := b.ask_price ++ [tick.ask_price]
  ask_condition := b.ask_condition ++ [tick.ask_condition % 2 ^ 8]
  date := b.date ++ [tick.date]
  root := b.root ++ [contract.root]
  expiration := b.expiration ++ [contract.expiration]
  strike := b.strike ++ [contract.strike]
  right := b.right ++ [contract.right]

/-- `finish`: assemble the immutable batch in schema column order. -/
def finish (b : TickBatchBuilder) : RecordBatch where
  numRows := b.ms_of_day.length
  columns :=
    [("ms_of_day", .u32 b.ms_of_day), ("bid_size", .u16 b.bid_size),
     ("bid_exchange", .u8 b.bid_exchange), ("bid_price", .f32 b.bid_price),
     ("bid_condition", .u8 b.bid_condition), ("ask_size", .u16 b.ask_size),
     ("ask_exchange", .u8 b.ask_exchange), ("ask_price", .f32 b.ask_price),
     ("ask_condition", .u8 b.ask_condition), ("date", .u32 b.date),
     ("root", .str b.root), ("expiration", .u32 b.expiration),
     ("strike", .u32 b.strike), ("right", .str b.right)]

end TickBatchBuilder

/-! ## The price index (`HashMap<u32, f32>`) -/

/-- The price index: an association list with distinct keys. -/
abbrev PriceIndex := List (Nat × ℚ)

/-- `HashMap::insert`: overwrite any existing binding for the key. -/
def idxInsert (m : PriceIndex) (k : Nat) (v : ℚ) : PriceIndex :=
  (k, v) :: m.filter (fun p => p.1 ≠ k)

/-- `HashMap::get`. -/
def idxGet (m : PriceIndex) (k : Nat) : Option ℚ :=
  (m.find? (fun p => p.1 = k)).map (fun p => p.2)

/-! ## The decoder (`parser.rs`, `parse_combined_data`)

The JSON deserialization itself (serde / simd-json) is outside the model:
its only observable behaviour is producing the typed documents consumed
here (or a decode error producing nothing). -/

/-- The synthetic contract used for underlying rows. -/
def underlying_contract : JsonContract :=
  { root := "STOCK", expiration := 0, strike := 0, right := "U" }

/-- The midpoint price stored in the price index for a stock tick:
`(bid + ask) / 2`. -/
def midpoint (t : JsonStockTick) : ℚ :=
  (t.bid_price + t.ask_price) / 2

/-- The price-index construction loop of `parse_combined_data`: insert
the midpoint of every stock tick, in feed order. -/
def buildPriceIndex (ticks : List JsonStockTick) : PriceIndex :=
  ticks.foldl (fun m t => idxInsert m t.ms_of_day (midpoint t)) []

/-- `parse_combined_data`: build the price index from the underlying
feed, then append all option ticks (in document order) followed by all
underlying ticks to the batch builder.  The zero-tick case
short-circuits to an empty batch and empty index. -/
def parse_combined_data (option_response : JsonResponse)
    (stock_response : JsonStockResponse) : RecordBatch × PriceIndex :=
  let option_ticks := (option_response.response.map (fun e => e.ticks.length)).sum
  let stock_ticks := stock_response.response.length
  let total_ticks := option_ticks + stock_ticks
  if total_ticks = 0 then
    ((TickBatchBuilder.new 0).finish, [])
  else
    let price_index := buildPriceIndex stock_response.response
    let builder := option_response.response.foldl
      (fun b entry => entry.ticks.foldl
        (fun b tick => b.append_tick tick entry.contract) b)
      (TickBatchBuilder.new total_ticks)
    let builder := stock_response.response.foldl
      (fun b tick => b.append_tick tick underlying_contract) builder
    (builder.finish, price_index)

/-! ## Dates (`chrono::NaiveDate` as used by this code)

Every date reaching this code is decomposed from an unsigned YYYYMMDD
integer, so years are natural numbers; chrono additionally caps the year
at `i32::MAX >> 13 = 262143`. -/

structure Date where
  year : Nat
  month : Nat
  day : Nat
deriving DecidableEq, Repr

def isLeapYear (y : Nat) : Bool :=
  (y % 4 = 0 ∧ y % 100 ≠ 0) ∨ y % 400 = 0

def daysInMonth (y m : Nat) : Nat :=
  if m = 2 then (if isLeapYear y then 29 else 28)
  else if m = 4 ∨ m = 6 ∨ m = 9 ∨ m = 11 then 30
  else 31

/-- `NaiveDate::from_ymd_opt` restricted to non-negative years: succeeds
exactly on real proleptic-Gregorian calendar dates within chrono's year
range. -/
def from_ymd_opt (y m d : Nat) : Option Date :=
  if y ≤ 262143 ∧ 1 ≤ m ∧ m ≤ 12 ∧ 1 ≤ d ∧ d ≤ daysInMonth y m then
    some ⟨y, m, d⟩
  else none

/-- Day number of a date (days since 1970-01-01, Howard Hinnant's
`days_from_civil`); date subtraction `(a - b).num_days()` is
`toDayNumber a - toDayNumber b`. -/
def toDayNumber (dt : Date) : Int :=
  let y : Int := if dt.month ≤ 2 then (dt.year : Int) - 1 else (dt.year : Int)
  let era : Int := y / 400 - (if y % 400 < 0 then 1 else 0)
  let yoe : Int := y - era * 400
  let mp : Int := if 2 < dt.month then (dt.month : Int) - 3 else (dt.month : Int) + 9
  let doy : Int := (153 * mp + 2) / 5 + (dt.day : Int) - 1
  let doe : Int := yoe * 365 + yoe / 4 - yoe / 100 + doy
  era * 146097 + doe - 719468

/-! ## The filter engine (`filter.rs`) -/

/-- The precomputed square-root lookup table (`SQRT_LUT`): entry `i` of
the 366-entry table holds `sqrt(i)` (real-valued model of the `f32`
table). -/
noncomputable def SQRT_LUT (i : Nat) : ℝ :=
  Real.sqrt (i : ℝ)

/-- `fast_sqrt`: table lookup for `dte < 366`, direct computation
otherwise.  (Only ever called with `dte > 0`; `Int.toNat` stands for the
`as usize` index cast.) -/
noncomputable def fast_sqrt (dte : Int) : ℝ :=
  if dte < 366 then SQRT_LUT dte.toNat else Real.sqrt (dte : ℝ)

/-- `parse_yyyymmdd_branchless`: decompose a YYYYMMDD integer and apply
the cheap wrapping-subtraction range check before full calendar
validation.  `month.wrapping_sub(1)` on `u32` is
`(month + (2^32 - 1)) % 2^32`. -/
def parse_yyyymmdd_branchless (date : Nat) : Option Date :=
  let year := date / 10000
  let month := (date % 10000) / 100
  let day := date % 100
  if (month + (2 ^ 32 - 1)) % 2 ^ 32 < 12 ∧ (day + (2 ^ 32 - 1)) % 2 ^ 32 < 31 then
    from_ymd_opt year month day
  else
    none

/-- The `if let Some(exp_date) = ...` branch of the `filter_dte_arrow`
loop body: a row with a parsed expiration date passes iff
`0 < dte ∧ dte ≤ max_dte`; a row whose expiration failed to parse is
excluded. -/
def dteOfParsed (current_date : Date) (max_dte : Int) : Option Date → Bool
  | some exp_date =>
    let dte := toDayNumber exp_date - toDayNumber current_date
    decide (0 < dte ∧ dte ≤ max_dte)
  | none => false

/-- The per-row body of the `filter_dte_arrow` loop: parse the
expiration, compute `dte`, and test `0 < dte ∧ dte ≤ max_dte`. -/
def dteRow (current_date : Date) (max_dte : Int) (expiration : Nat) : Bool :=
  dteOfParsed current_date max_dte (parse_yyyymmdd_branchless expiration)

/-- `filter_dte_arrow`: the DTE (days-to-expiration) filter mask. -/
def filter_dte_arrow (expiration_array : List Nat) (current_date : Date)
    (max_dte : Int) : List Bool :=
  expiration_array.map (dteRow current_date max_dte)

/-- The per-row threshold of `compute_dynamic_thresholds` for a row with
positive `dte`: `base_pct * sqrt(dte)`. -/
noncomputable def threshold (base_pct : ℚ) (dte : Int) : ℝ :=
  (base_pct : ℝ) * fast_sqrt dte

/-- `compute_dynamic_thresholds`: per-row dynamic threshold array; rows
with an unparseable expiration or non-positive `dte` get threshold 0. -/
noncomputable def compute_dynamic_thresholds (expiration_array : List Nat)
    (current_date : Date) (base_pct : ℚ) : List ℝ :=
  expiration_array.map fun expiration =>
    match parse_yyyymmdd_branchless expiration with
    | some exp_date =>
      let dte := toDayNumber exp_date - toDayNumber current_date
      if 0 < dte then threshold base_pct dte else 0
    | none => 0

/-- One iteration of the moneyness loop of
`filter_contracts_arrow_native`: underlying rows (`right == "U"`) and
rows without a price-index entry for their time-of-day are excluded;
otherwise the row passes iff `|strike - underlying| ≤ underlying *
threshold`. -/
noncomputable def moneyness_row (price_index : PriceIndex) (strike : ℚ)
    (thr : ℝ) (ms_of_day : Nat) (right : String) : Bool :=
  if right = "U" then false
  else
    match idxGet price_index ms_of_day with
    | none => false
    | some underlying =>
      if |(strike : ℝ) - (underlying : ℝ)| ≤ (underlying : ℝ) * thr then true
      else false

/-- The moneyness loop over the four equal-length row streams. -/
noncomputable def moneyness_mask (price_index : PriceIndex) :
    List ℚ → List ℝ → List Nat → List String → List Bool
  | s :: ss, t :: ts, m :: ms, r :: rs =>
    moneyness_row price_index s t m r :: moneyness_mask price_index ss ts ms rs
  | _, _, _, _ => []

/-- The arrow `and` compute kernel on boolean masks: errors when the
lengths differ. -/
def andMasks (a b : List Bool) : Except String (List Bool) :=
  if a.length = b.length then
    .ok (a.zipWith (fun x y => x && y) b)
  else
    .error "Cannot perform bitwise operation on arrays of different length"

/-- Keep the elements of `xs` whose mask entry is `true` (the arrow
`filter` kernel on one array, lengths already equal). -/
def filterList {α : Type} (xs : List α) (mask : List Bool) : List α :=
  ((xs.zip mask).filter (fun p => p.2)).map (fun p => p.1)

/-- The arrow `filter` kernel applied to one column. -/
def Col.filterCol (c : Col) (mask : List Bool) : Col :=
  match c with
  | .u32 xs => .u32 (filterList xs mask)
  | .u16 xs => .u16 (filterList xs mask)
  | .u8 xs => .u8 (filterList xs mask)
  | .f32 xs => .f32 (filterList xs mask)
  | .str xs => .str (filterList xs mask)

/-- `arrow::compute::filter_record_batch`: filter every column by the
mask (errors if some column's length differs from the mask's), producing
a batch whose row count is the number of `true` mask entries. -/
def filter_record_batch (batch : RecordBatch) (mask : List Bool) :
    Except String RecordBatch :=
  if batch.columns.all (fun p => Col.length p.2 = mask.length) then
    .ok ⟨mask.count true, batch.columns.map (fun p => (p.1, p.2.filterCol mask))⟩
  else
    .error "Filter predicate length does not match array length"

/-- `filter_contracts_arrow_native`: the main filtering function.
Validation order, error messages, and the control flow mirror the
source; `strike` minor units are converted to dollars by `* 0.0001`. -/
noncomputable def filter_contracts_arrow_native (batch : RecordBatch)
    (current_date : Date) (price_index : PriceIndex) (max_dte : Int)
    (base_pct : ℚ) : Except String RecordBatch :=
  if batch.numRows = 0 then .ok batch
  else if price_index = [] then .error "Price index cannot be empty"
  else if max_dte ≤ 0 then .error "Max DTE must be positive"
  else if base_pct ≤ 0 ∨ 1 < base_pct then
    .error "Base percentage must be between 0 and 1"
  else
    match column_by_name batch "expiration" with
    | none => .error "Missing expiration column"
    | some c =>
    match c.asU32 with
    | none => .error "Invalid expiration column type"
    | some expiration_array =>
    match column_by_name batch "strike" with
    | none => .error "Missing strike column"
    | some c =>
    match c.asU32 with
    | none => .error "Invalid strike column type"
    | some strike_array =>
    match column_by_name batch "ms_of_day" with
    | none => .error "Missing ms_of_day column"
    | some c =>
    match c.asU32 with
    | none => .error "Invalid ms_of_day column type"
    | some ms_of_day_array =>
    match column_by_name batch "right" with
    | none => .error "Missing right column"
    | some c =>
    match c.asStr with
    | none => .error "Invalid right column type"
    | some right_array =>
    if expiration_array.length ≠ strike_array.length ∨
       expiration_array.length ≠ ms_of_day_array.length ∨
       expiration_array.length ≠ right_array.length then
      .error "Array lengths are mismatched"
    else if expiration_array.length ≠ batch.numRows then
      .error "Array length does not match batch row count"
    else
      let strike_dollars := strike_array.map (fun s : Nat => (s : ℚ) * (1 / 10000))
      let dte_mask := filter_dte_arrow expiration_array current_date max_dte
      let thresholds := compute_dynamic_thresholds expiration_array current_date base_pct
      if dte_mask.length ≠ expiration_array.length ∨
         thresholds.length ≠ expiration_array.length ∨
         strike_dollars.length ≠ expiration_array.length then
        .error "Computed arrays have inconsistent lengths"
      else if strike_dollars.length ≠ thresholds.length then
        .error "Strike and threshold arrays have mismatched lengths"
      else
        let mon_mask := moneyness_mask price_index strike_dollars thresholds
          ms_of_day_array right_array
        match andMasks dte_mask mon_mask with
        | .error e => .error e
        | .ok final_mask => filter_record_batch batch final_mask


/-! ## Derived predicates -/

/-- Whether a `Result`/`Except` value is a success. -/
def exceptIsOk {ε α : Type} : Except ε α → Bool
  | .ok _ => true
  | .error _ => false

/-- The filter's participating columns (expiration, strike, ms_of_day,
right) all have length equal to the batch row count, whenever they are
present with the expected type. -/
def participatingLengthsOk (b : RecordBatch) : Prop :=
  (∀ xs, getU32 b "expiration" = some xs → xs.length = b.numRows) ∧
  (∀ xs, getU32 b "strike" = some xs → xs.length = b.numRows) ∧
  (∀ xs, getU32 b "ms_of_day" = some xs → xs.length = b.numRows) ∧
  (∀ xs, getStr b "right" = some xs → xs.length = b.numRows)

/-! ## The concrete scenario of the specification

Two ticks for a 150.00-strike call and one tick for a 165.00-strike
call, all expiring 2023-11-17, plus one underlying tick at the same
time-of-day with bid 149.75 / ask 149.85 (midpoint 149.80).  Fields the
scenario leaves open (sizes, codes, option quote prices) are arbitrary
small values. -/

def scenOptionDoc : JsonResponse :=
  { response :=
    [ { ticks := [⟨34200000, 10, 1, 2, 0, 12, 1, 3, 0, 20231110⟩,
                  ⟨34200000, 11, 1, 2, 0, 13, 1, 3, 0, 20231110⟩],
        contract := { root := "AAPL", expiration := 20231117, strike := 1500000, right := "C" } },
      { ticks := [⟨34200000, 5, 1, 1, 0, 6, 1, 2, 0, 20231110⟩],
        contract := { root := "AAPL", expiration := 20231117, strike := 1650000, right := "C" } } ] }

def scenStockDoc : JsonStockResponse :=
  { response := [⟨34200000, 100, 1, 149.75, 0, 100, 1, 149.85, 0, 20231110⟩] }

/-- The decoded batch of the scenario (three option rows followed by the
underlying row). -/
def scenBatch : RecordBatch := (parse_combined_data scenOptionDoc scenStockDoc).1

/-- The price index of the scenario. -/
def scenIdx : PriceIndex := (parse_combined_data scenOptionDoc scenStockDoc).2

/-- The as-of date 2023-11-10 of the scenario. -/
def scenDate : Date := ⟨2023, 11, 10⟩

/-- The batch produced by filtering the scenario with `max_dte = 30` and
`base_pct = 0.10`: all three option rows survive. -/
def scenOut : RecordBatch :=
  { numRows := 3,
    columns :=
      [("ms_of_day", .u32 [34200000, 34200000, 34200000]),
       ("bid_size", .u16 [10, 11, 5]),
       ("bid_exchange", .u8 [1, 1, 1]),
       ("bid_price", .f32 [2, 2, 1]),
       ("bid_condition", .u8 [0, 0, 0]),
       ("ask_size", .u16 [12, 13, 6]),
       ("ask_exchange", .u8 [1, 1, 1]),
       ("ask_price", .f32 [3, 3, 2]),
       ("ask_condition", .u8 [0, 0, 0]),
       ("date", .u32 [20231110, 20231110, 20231110]),
       ("root", .str ["AAPL", "AAPL", "AAPL"]),
       ("expiration", .u32 [20231117, 20231117, 20231117]),
       ("strike", .u32 [1500000, 1500000, 1650000]),
       ("right", .str ["C", "C", "C"])] }

/-! ## Helper lemmas -/

lemma scen_idx_eq : scenIdx = [(34200000, 749/5)] := by
  have : midpoint ⟨34200000, 100, 1, 149.75, 0, 100, 1, 149.85, 0, 20231110⟩ = 749/5 := by
    unfold midpoint
    norm_num
  simp [scenIdx, parse_combined_data, buildPriceIndex, idxInsert, scenOptionDoc, scenStockDoc, this]

lemma scen_idxGet : idxGet scenIdx 34200000 = some (749/5) := by
  rw [scen_idx_eq]
  simp [idxGet]

lemma fast_sqrt_of_nonneg (d : Int) (h : 0 ≤ d) : fast_sqrt d = Real.sqrt (d : ℝ) := by
  unfold fast_sqrt SQRT_LUT
  split
  · congr 1
    exact_mod_cast congrArg (fun z : Int => (z : ℝ)) (Int.toNat_of_nonneg h)
  · rfl

lemma sqrt7_ge_two : (2 : ℝ) ≤ Real.sqrt 7 := by
  nlinarith [Real.sq_sqrt (show (0:ℝ) ≤ 7 by norm_num), Real.sqrt_nonneg (7:ℝ)]

lemma threshold7_eq : threshold (1/10) 7 = (1/10 : ℝ) * Real.sqrt 7 := by
  rw [threshold, fast_sqrt_of_nonneg 7 (by norm_num)]
  norm_num

lemma mrow150 : moneyness_row scenIdx 150 (threshold (1/10) 7) 34200000 "C" = true := by
  unfold moneyness_row
  rw [if_neg (by decide)]
  simp only [scen_idxGet]
  rw [if_pos]
  rw [threshold7_eq, abs_le]
  push_cast
  constructor <;> nlinarith [sqrt7_ge_two, Real.sqrt_nonneg (7:ℝ)]

lemma mrow165 : moneyness_row scenIdx 165 (threshold (1/10) 7) 34200000 "C" = true := by
  unfold moneyness_row
  rw [if_neg (by decide)]
  simp only [scen_idxGet]
  rw [if_pos]
  rw [threshold7_eq, abs_le]
  push_cast
  constructor <;> nlinarith [sqrt7_ge_two, Real.sqrt_nonneg (7:ℝ)]

lemma mrowU (idx : PriceIndex) (s : ℚ) (t : ℝ) (m : Nat) :
    moneyness_row idx s t m "U" = false := by
  unfold moneyness_row
  rw [if_pos rfl]

lemma scen_thresholds :
    compute_dynamic_thresholds [20231117,20231117,20231117,0] scenDate (1/10)
      = [threshold (1/10) 7, threshold (1/10) 7, threshold (1/10) 7, 0] := by
  have hp : parse_yyyymmdd_branchless 20231117 = some ⟨2023,11,17⟩ := by decide
  have hp0 : parse_yyyymmdd_branchless 0 = none := by decide
  have hd : toDayNumber ⟨2023,11,17⟩ - toDayNumber scenDate = 7 := by decide
  simp only [compute_dynamic_thresholds, List.map_cons, List.map_nil, hp, hp0, hd]
  norm_num

lemma scen_mon_mask :
    moneyness_mask scenIdx [150,150,165,0]
      [threshold (1/10) 7, threshold (1/10) 7, threshold (1/10) 7, 0]
      [34200000,34200000,34200000,34200000] ["C","C","C","U"]
      = [true,true,true,false] := by
  simp only [moneyness_mask, mrow150, mrow165, mrowU]

lemma length_filter_dte_arrow (e : List Nat) (c : Date) (m : Int) :
    (filter_dte_arrow e c m).length = e.length :=
  List.length_map _ _

lemma length_compute_dynamic_thresholds (e : List Nat) (c : Date) (b : ℚ) :
    (compute_dynamic_thresholds e c b).length = e.length :=
  List.length_map _ _

lemma filter_contracts_eval (batch : RecordBatch) (cur : Date) (idx : PriceIndex)
    (md : Int) (bp : ℚ) (exps strikes mss : List Nat) (rts : List String)
    (h0 : ¬ batch.numRows = 0) (hidx : ¬ idx = []) (hmd : 0 < md)
    (hbp0 : 0 < bp) (hbp1 : bp ≤ 1)
    (hexp : column_by_name batch "expiration" = some (.u32 exps))
    (hstr : column_by_name batch "strike" = some (.u32 strikes))
    (hms : column_by_name batch "ms_of_day" = some (.u32 mss))
    (hrt : column_by_name batch "right" = some (.str rts))
    (hl1 : strikes.length = exps.length) (hl2 : mss.length = exps.length)
    (hl3 : rts.length = exps.length) (hlb : exps.length = batch.numRows) :
    filter_contracts_arrow_native batch cur idx md bp =
      match andMasks (filter_dte_arrow exps cur md)
        (moneyness_mask idx (strikes.map (fun s : Nat => (s : ℚ) * (1 / 10000)))
          (compute_dynamic_thresholds exps cur bp) mss rts) with
      | .error e => .error e
      | .ok final_mask => filter_record_batch batch final_mask := by
  unfold filter_contracts_arrow_native
  rw [if_neg h0, if_neg hidx, if_neg (by omega),
    if_neg (by push_neg; exact ⟨hbp0, hbp1⟩)]
  simp only [hexp, hstr, hms, hrt, Col.asU32, Col.asStr]
  rw [if_neg (by simp [hl1, hl2, hl3]), if_neg (by simp [hlb])]
  have hc1 : ¬ ((filter_dte_arrow exps cur md).length ≠ exps.length ∨
      (compute_dynamic_thresholds exps cur bp).length ≠ exps.length ∨
      (strikes.map (fun s : Nat => (s : ℚ) * (1 / 10000))).length ≠ exps.length) := by
    push_neg
    exact ⟨length_filter_dte_arrow .., length_compute_dynamic_thresholds ..,
      by rw [List.length_map, hl1]⟩
  have hc2 : ¬ ((strikes.map (fun s : Nat => (s : ℚ) * (1 / 10000))).length ≠
      (compute_dynamic_thresholds exps cur bp).length) := by
    push_neg
    rw [List.length_map, length_compute_dynamic_thresholds, hl1]
  rw [if_neg hc1, if_neg hc2]

lemma scen_filter_eval :
    filter_contracts_arrow_native scenBatch scenDate scenIdx 30 (1/10) = .ok scenOut := by
  rw [filter_contracts_eval scenBatch scenDate scenIdx 30 (1/10)
      [20231117,20231117,20231117,0] [1500000,1500000,1650000,0]
      [34200000,34200000,34200000,34200000] ["C","C","C","U"]
      (by decide) (by simp [scen_idx_eq]) (by norm_num) (by norm_num) (by norm_num)
      (by decide) (by decide) (by decide) (by decide)
      (by decide) (by decide) (by decide) (by decide)]
  have hdte : filter_dte_arrow [20231117,20231117,20231117,0] scenDate 30
      = [true,true,true,false] := by decide
  have hsd : ([1500000,1500000,1650000,0].map (fun s : Nat => (s : ℚ) * (1 / 10000)))
      = [150,150,165,0] := by norm_num
  rw [hdte, hsd, scen_thresholds, scen_mon_mask]
  rfl


/-! ## Claim theorems -/

/-- C1 (counterexample): in the spec's concrete scenario the
165.00-strike row does NOT fail the moneyness test: its moneyness row
check evaluates to `true` (|165 − 149.80| = 15.20 ≤ 149.80 × 0.10 × √7 ≈
39.62), and the row survives into the filtered batch's strike column. -/
theorem scenario_165_strike_passes_moneyness :
    moneyness_row scenIdx 165 (threshold (1/10) 7) 34200000 "C" = true ∧
    (filter_contracts_arrow_native scenBatch scenDate scenIdx 30 (1/10)).map
      (fun b => getU32 b "strike") = .ok (some [1500000, 1500000, 1650000]) :=
  ⟨mrow165, by rw [scen_filter_eval]; rfl⟩

/-- C1 (amended): in the spec's concrete scenario (`as_of_date =
20231110`, `max_dte = 30`, `base_pct = 0.10`) `dte = 7` and every
150.00-strike row passes the moneyness test, but the 165.00-strike row
ALSO passes it (a row passes iff |strike − underlying| ≤ underlying ×
0.10 × √7 ≈ 39.62, and 15.20 ≤ 39.62); the filtered batch keeps all
three option rows and drops only the underlying row. -/
theorem scenario_filter_result :
    toDayNumber ⟨2023, 11, 17⟩ - toDayNumber scenDate = 7 ∧
    filter_contracts_arrow_native scenBatch scenDate scenIdx 30 (1/10) = .ok scenOut ∧
    moneyness_row scenIdx 150 (threshold (1/10) 7) 34200000 "C" = true ∧
    moneyness_row scenIdx 165 (threshold (1/10) 7) 34200000 "C" = true :=
  ⟨by decide, scen_filter_eval, mrow150, mrow165⟩

/-- C2 (counterexample): calling the filter with `max_dte = 0` on a
non-empty batch does not succeed: it returns an error, not a zero-row
batch. -/
theorem scenario_max_dte_zero_not_ok :
    exceptIsOk (filter_contracts_arrow_native scenBatch scenDate scenIdx 0 (1/10)) = false :=
  rfl

/-- C2 (amended): calling the filter with `max_dte = 0` on a non-empty
batch (with a non-empty price index) fails the `max_dte > 0`
precondition with the error "Max DTE must be positive"; the per-row
horizon mask itself would reject every row, because a row passes only
when `0 < dte ≤ max_dte`. -/
theorem filter_max_dte_zero_errors :
    (∀ (batch : RecordBatch) (cur : Date) (idx : PriceIndex) (bp : ℚ),
      ¬ batch.numRows = 0 → ¬ idx = [] →
      filter_contracts_arrow_native batch cur idx 0 bp
        = .error "Max DTE must be positive") ∧
    (∀ (exps : List Nat) (cur : Date),
      filter_dte_arrow exps cur 0 = exps.map (fun _ => false)) := by
  constructor
  · intro batch cur idx bp h0 hidx
    unfold filter_contracts_arrow_native
    rw [if_neg h0, if_neg hidx, if_pos (le_refl (0 : Int))]
  · intro exps cur
    unfold filter_dte_arrow
    refine List.map_congr_left ?_
    intro e _
    unfold dteRow
    rcases parse_yyyymmdd_branchless e with _ | d
    · rfl
    · simp only [dteOfParsed, decide_eq_false_iff_not, not_and, not_le]
      omega

theorem filter_max_dte_zero_errors_witness :
    filter_contracts_arrow_native scenBatch scenDate scenIdx 0 (1/10)
      = .error "Max DTE must be positive" ∧
    filter_dte_arrow [20231117, 20231110] scenDate 0
      = [20231117, 20231110].map (fun _ => false) :=
  ⟨filter_max_dte_zero_errors.1 scenBatch scenDate scenIdx (1/10) (by decide)
      (by simp [scen_idx_eq]),
   filter_max_dte_zero_errors.2 [20231117, 20231110] scenDate⟩

/-- C3: a zero-row input batch is returned unchanged and successfully,
whatever the price index, `max_dte` and `base_pct` are — the zero-row
short-circuit runs before any precondition check. -/
theorem filter_empty_batch_short_circuit (batch : RecordBatch) (cur : Date)
    (idx : PriceIndex) (md : Int) (bp : ℚ) (h : batch.numRows = 0) :
    filter_contracts_arrow_native batch cur idx md bp = .ok batch := by
  unfold filter_contracts_arrow_native
  rw [if_pos h]

theorem filter_empty_batch_short_circuit_witness :
    filter_contracts_arrow_native ((TickBatchBuilder.new 0).finish)
      ⟨2023, 11, 10⟩ [] (-3) (7/2) = .ok ((TickBatchBuilder.new 0).finish) :=
  filter_empty_batch_short_circuit _ _ _ _ _ rfl

/-- C8: for fixed `base_pct` in (0, 1], the per-row threshold
`base_pct * sqrt(dte)` is strictly increasing in `dte` over positive
`dte` values. -/
theorem threshold_strict_mono (bp : ℚ) (d1 d2 : Int)
    (hbp0 : 0 < bp) (hbp1 : bp ≤ 1) (h1 : 0 < d1) (h12 : d1 < d2) :
    threshold bp d1 < threshold bp d2 := by
  unfold threshold
  rw [fast_sqrt_of_nonneg d1 (by omega), fast_sqrt_of_nonneg d2 (by omega)]
  have hb : (0 : ℝ) < (bp : ℝ) := by exact_mod_cast hbp0
  apply mul_lt_mul_of_pos_left _ hb
  apply Real.sqrt_lt_sqrt
  · exact_mod_cast h1.le
  · exact_mod_cast h12

theorem threshold_strict_mono_witness :
    threshold (1/10) 7 < threshold (1/10) 8 :=
  threshold_strict_mono (1/10) 7 8 (by norm_num) (by norm_num) (by norm_num) (by norm_num)

/-- C9: decoding well-formed documents that together contain zero ticks
succeeds with a zero-row batch carrying the full 14-column schema and an
empty price index. -/
theorem decode_zero_ticks (o : JsonResponse) (s : JsonStockResponse)
    (h : (o.response.map (fun e => e.ticks.length)).sum + s.response.length = 0) :
    (parse_combined_data o s).1.numRows = 0 ∧
    (parse_combined_data o s).1.schema = create_tick_schema ∧
    (parse_combined_data o s).2 = [] := by
  have heq : parse_combined_data o s = ((TickBatchBuilder.new 0).finish, []) := by
    unfold parse_combined_data
    simp only [h]
    rfl
  rw [heq]
  exact ⟨rfl, rfl, rfl⟩

theorem decode_zero_ticks_witness :
    (parse_combined_data ⟨[⟨[], ⟨"AAPL", 20231117, 1500000, "C"⟩⟩]⟩ ⟨[]⟩).1.numRows = 0 ∧
    (parse_combined_data ⟨[⟨[], ⟨"AAPL", 20231117, 1500000, "C"⟩⟩]⟩ ⟨[]⟩).1.schema
      = create_tick_schema ∧
    (parse_combined_data ⟨[⟨[], ⟨"AAPL", 20231117, 1500000, "C"⟩⟩]⟩ ⟨[]⟩).2 = [] :=
  decode_zero_ticks _ _ rfl

/-- C10: appending a tick narrows the bid/ask sizes to unsigned 16 bits
and the exchange and condition codes to unsigned 8 bits by truncation:
the stored value is the input value modulo 2^16 (respectively 2^8), so
out-of-range inputs wrap silently instead of being rejected. -/
theorem append_tick_truncates (b : TickBatchBuilder) (tick : Tick) (c : JsonContract) :
    getU16 ((b.append_tick tick c).finish) "bid_size"
      = some (b.bid_size ++ [tick.bid_size % 2 ^ 16]) ∧
    getU16 ((b.append_tick tick c).finish) "ask_size"
      = some (b.ask_size ++ [tick.ask_size % 2 ^ 16]) ∧
    getU8 ((b.append_tick tick c).finish) "bid_exchange"
      = some (b.bid_exchange ++ [tick.bid_exchange % 2 ^ 8]) ∧
    getU8 ((b.append_tick tick c).finish) "bid_condition"
      = some (b.bid_condition ++ [tick.bid_condition % 2 ^ 8]) ∧
    getU8 ((b.append_tick tick c).finish) "ask_exchange"
      = some (b.ask_exchange ++ [tick.ask_exchange % 2 ^ 8]) ∧
    getU8 ((b.append_tick tick c).finish) "ask_condition"
      = some (b.ask_condition ++ [tick.ask_condition % 2 ^ 8]) :=
  ⟨rfl, rfl, rfl, rfl, rfl, rfl⟩


lemma find?_filter_of_ne (m : PriceIndex) (k t : Nat) (h : t ≠ k) :
    (m.filter (fun p => p.1 ≠ k)).find? (fun p => p.1 = t)
      = m.find? (fun p => p.1 = t) := by
  induction m with
  | nil => rfl
  | cons hd tl ih =>
    rw [List.filter_cons, List.find?_cons]
    by_cases hk : hd.1 = k
    · have h1 : (decide (hd.1 ≠ k)) = false := by simp [hk]
      have h2 : (decide (hd.1 = t)) = false := by
        simp only [decide_eq_false_iff_not]
        rw [hk]
        exact fun hh => h hh.symm
      rw [h1, h2]
      simp only [Bool.false_eq_true, if_false, ih]
    · have h1 : (decide (hd.1 ≠ k)) = true := by simp [hk]
      rw [h1]
      simp only [if_true, List.find?_cons]
      by_cases ht : hd.1 = t
      · rw [decide_eq_true ht]
      · rw [decide_eq_false ht]
        exact ih

lemma idxGet_idxInsert (m : PriceIndex) (k : Nat) (v : ℚ) (t : Nat) :
    idxGet (idxInsert m k v) t = if t = k then some v else idxGet m t := by
  unfold idxGet idxInsert
  rw [List.find?_cons]
  by_cases h : t = k
  · rw [if_pos h, decide_eq_true (show k = t from h.symm)]
    rfl
  · rw [if_neg h, decide_eq_false (show ¬ k = t from fun hh => h hh.symm)]
    rw [find?_filter_of_ne m k t h]


lemma idxGet_foldl_insert (ticks : List Tick) (m : PriceIndex) (t : Nat) :
    idxGet (ticks.foldl (fun acc tk => idxInsert acc tk.ms_of_day (midpoint tk)) m) t
      = ((ticks.reverse.find? (fun tk => tk.ms_of_day = t)).map midpoint).or (idxGet m t) := by
  induction ticks generalizing m with
  | nil => simp
  | cons tk rest ih =>
    rw [List.foldl_cons, ih, List.reverse_cons, List.find?_append, idxGet_idxInsert]
    by_cases h : tk.ms_of_day = t
    · have hf : List.find? (fun tk : Tick => tk.ms_of_day = t) [tk] = some tk := by
        simp [List.find?_cons, h]
      rw [hf, if_pos h.symm]
      cases hrest : List.find? (fun tk : Tick => tk.ms_of_day = t) rest.reverse with
      | none => simp [Option.or]
      | some tk2 => simp [Option.or]
    · have hf : List.find? (fun tk : Tick => tk.ms_of_day = t) [tk] = none := by
        simp [List.find?_cons, h]
      rw [hf, if_neg (fun hh => h hh.symm)]
      cases hrest : List.find? (fun tk : Tick => tk.ms_of_day = t) rest.reverse with
      | none => simp [Option.or]
      | some tk2 => simp [Option.or]

/-- C7: the price index produced by the decoder maps a time-of-day `t`
to the midpoint `(bid + ask) / 2` of the LAST underlying tick with
time-of-day `t` in feed order (last write wins, no averaging), and holds
no entry for any time-of-day that does not occur in the underlying
feed. -/
theorem price_index_last_write_wins (o : JsonResponse) (s : JsonStockResponse) (t : Nat) :
    idxGet (parse_combined_data o s).2 t
      = (s.response.reverse.find? (fun tk => tk.ms_of_day = t)).map midpoint := by
  unfold parse_combined_data
  by_cases h : (o.response.map (fun e => e.ticks.length)).sum + s.response.length = 0
  · have hs : s.response = [] := List.eq_nil_of_length_eq_zero (by omega)
    have ho : (o.response.map (fun e => e.ticks.length)).sum = 0 := by omega
    simp [ho, hs, idxGet]
  · simp only [h, if_false]
    unfold buildPriceIndex
    rw [idxGet_foldl_insert]
    simp [idxGet]


lemma parse_yyyymmdd_eq (n : Nat) :
    parse_yyyymmdd_branchless n =
      if ((n % 10000) / 100 + (2 ^ 32 - 1)) % 2 ^ 32 < 12 ∧
         (n % 100 + (2 ^ 32 - 1)) % 2 ^ 32 < 31 then
        from_ymd_opt (n / 10000) ((n % 10000) / 100) (n % 100)
      else none := rfl

/-- C6: a row passes the horizon mask iff its expiration integer,
decomposed as `year = n / 10000`, `month = (n % 10000) / 100`,
`day = n % 100`, passes the cheap wrapping-subtraction range check AND
forms a real calendar date AND `0 < dte ≤ max_dte`; the mask is computed
row by row over the whole expiration array, so a failing expiration is a
per-row exclusion, never a call-level error. -/
theorem horizon_mask_row_iff :
    (∀ (n : Nat) (cur : Date) (md : Int),
      dteRow cur md n = true ↔
        ((((n % 10000) / 100 + (2 ^ 32 - 1)) % 2 ^ 32 < 12 ∧
          (n % 100 + (2 ^ 32 - 1)) % 2 ^ 32 < 31) ∧
         ∃ d, from_ymd_opt (n / 10000) ((n % 10000) / 100) (n % 100) = some d ∧
           0 < toDayNumber d - toDayNumber cur ∧
           toDayNumber d - toDayNumber cur ≤ md)) ∧
    (∀ (exps : List Nat) (cur : Date) (md : Int),
      filter_dte_arrow exps cur md = exps.map (dteRow cur md)) := by
  constructor
  · intro n cur md
    unfold dteRow
    rw [parse_yyyymmdd_eq]
    by_cases hc : ((n % 10000) / 100 + (2 ^ 32 - 1)) % 2 ^ 32 < 12 ∧
        (n % 100 + (2 ^ 32 - 1)) % 2 ^ 32 < 31
    · rw [if_pos hc]
      rcases hfd : from_ymd_opt (n / 10000) ((n % 10000) / 100) (n % 100) with _ | d
      · simp only [dteOfParsed]
        constructor
        · intro hfalse
          exact absurd hfalse (by decide)
        · rintro ⟨-, d2, hd2, -⟩
          exact Option.noConfusion hd2
      · simp only [dteOfParsed, decide_eq_true_eq, Option.some.injEq]
        constructor
        · intro hdte
          exact ⟨hc, d, rfl, hdte.1, hdte.2⟩
        · rintro ⟨-, d2, hd2, h1, h2⟩
          cases hd2
          exact ⟨h1, h2⟩
    · rw [if_neg hc]
      simp only [dteOfParsed]
      constructor
      · intro hfalse
        exact absurd hfalse (by decide)
      · rintro ⟨hcc, -⟩
        exact (hc hcc).elim
  · intro exps cur md
    rfl


lemma asU32_eq_some {c : Col} {xs : List Nat} (h : c.asU32 = some xs) : c = .u32 xs := by
  cases c <;> simp_all [Col.asU32]

lemma asStr_eq_some {c : Col} {xs : List String} (h : c.asStr = some xs) : c = .str xs := by
  cases c <;> simp_all [Col.asStr]

lemma filter_contracts_ok_inv (batch : RecordBatch) (cur : Date) (idx : PriceIndex)
    (md : Int) (bp : ℚ) (out : RecordBatch)
    (h0 : ¬ batch.numRows = 0)
    (hok : filter_contracts_arrow_native batch cur idx md bp = .ok out) :
    ¬ idx = [] ∧ 0 < md ∧ 0 < bp ∧ bp ≤ 1 ∧
    ∃ exps strikes mss rts final_mask,
      column_by_name batch "expiration" = some (.u32 exps) ∧
      column_by_name batch "strike" = some (.u32 strikes) ∧
      column_by_name batch "ms_of_day" = some (.u32 mss) ∧
      column_by_name batch "right" = some (.str rts) ∧
      strikes.length = exps.length ∧ mss.length = exps.length ∧
      rts.length = exps.length ∧ exps.length = batch.numRows ∧
      andMasks (filter_dte_arrow exps cur md)
        (moneyness_mask idx (strikes.map (fun s : Nat => (s : ℚ) * (1 / 10000)))
          (compute_dynamic_thresholds exps cur bp) mss rts) = .ok final_mask ∧
      filter_record_batch batch final_mask = .ok out := by
  by_cases hidx : idx = []
  · exfalso
    have herr : filter_contracts_arrow_native batch cur idx md bp
        = .error "Price index cannot be empty" := by
      unfold filter_contracts_arrow_native
      rw [if_neg h0, if_pos hidx]
    rw [herr] at hok
    exact Except.noConfusion hok
  by_cases hmd : md ≤ 0
  · exfalso
    have herr : filter_contracts_arrow_native batch cur idx md bp
        = .error "Max DTE must be positive" := by
      unfold filter_contracts_arrow_native
      rw [if_neg h0, if_neg hidx, if_pos hmd]
    rw [herr] at hok
    exact Except.noConfusion hok
  by_cases hbpor : bp ≤ 0 ∨ 1 < bp
  · exfalso
    have herr : filter_contracts_arrow_native batch cur idx md bp
        = .error "Base percentage must be between 0 and 1" := by
      unfold filter_contracts_arrow_native
      rw [if_neg h0, if_neg hidx, if_neg hmd, if_pos hbpor]
    rw [herr] at hok
    exact Except.noConfusion hok
  have hbp2 := hbpor
  push_neg at hbp2
  obtain ⟨hbp0, hbp1⟩ := hbp2
  rcases hexpc : column_by_name batch "expiration" with _ | cexp
  · exfalso
    have herr : filter_contracts_arrow_native batch cur idx md bp
        = .error "Missing expiration column" := by
      unfold filter_contracts_arrow_native
      rw [if_neg h0, if_neg hidx, if_neg hmd, if_neg hbpor]
      simp only [hexpc]
    rw [herr] at hok
    exact Except.noConfusion hok
  rcases hexpa : cexp.asU32 with _ | exps
  · exfalso
    have herr : filter_contracts_arrow_native batch cur idx md bp
        = .error "Invalid expiration column type" := by
      unfold filter_contracts_arrow_native
      rw [if_neg h0, if_neg hidx, if_neg hmd, if_neg hbpor]
      simp only [hexpc, hexpa]
    rw [herr] at hok
    exact Except.noConfusion hok
  cases asU32_eq_some hexpa
  rcases hstrc : column_by_name batch "strike" with _ | cstr
  · exfalso
    have herr : filter_contracts_arrow_native batch cur idx md bp
        = .error "Missing strike column" := by
      unfold filter_contracts_arrow_native
      rw [if_neg h0, if_neg hidx, if_neg hmd, if_neg hbpor]
      simp only [hexpc, hexpa, hstrc]
    rw [herr] at hok
    exact Except.noConfusion hok
  rcases hstra : cstr.asU32 with _ | strikes
  · exfalso
    have herr : filter_contracts_arrow_native batch cur idx md bp
        = .error "Invalid strike column type" := by
      unfold filter_contracts_arrow_native
      rw [if_neg h0, if_neg hidx, if_neg hmd, if_neg hbpor]
      simp only [hexpc, hexpa, hstrc, hstra]
    rw [herr] at hok
    exact Except.noConfusion hok
  cases asU32_eq_some hstra
  rcases hmsc : column_by_name batch "ms_of_day" with _ | cms
  · exfalso
    have herr : filter_contracts_arrow_native batch cur idx md bp
        = .error "Missing ms_of_day column" := by
      unfold filter_contracts_arrow_native
      rw [if_neg h0, if_neg hidx, if_neg hmd, if_neg hbpor]
      simp only [hexpc, hexpa, hstrc, hstra, hmsc]
    rw [herr] at hok
    exact Except.noConfusion hok
  rcases hmsa : cms.asU32 with _ | mss
  · exfalso
    have herr : filter_contracts_arrow_native batch cur idx md bp
        = .error "Invalid ms_of_day column type" := by
      unfold filter_contracts_arrow_native
      rw [if_neg h0, if_neg hidx, if_neg hmd, if_neg hbpor]
      simp only [hexpc, hexpa, hstrc, hstra, hmsc, hmsa]
    rw [herr] at hok
    exact Except.noConfusion hok
  cases asU32_eq_some hmsa
  rcases hrtc : column_by_name batch "right" with _ | crt
  · exfalso
    have herr : filter_contracts_arrow_native batch cur idx md bp
        = .error "Missing right column" := by
      unfold filter_contracts_arrow_native
      rw [if_neg h0, if_neg hidx, if_neg hmd, if_neg hbpor]
      simp only [hexpc, hexpa, hstrc, hstra, hmsc, hmsa, hrtc]
    rw [herr] at hok
    exact Except.noConfusion hok
  rcases hrta : crt.asStr with _ | rts
  · exfalso
    have herr : filter_contracts_arrow_native batch cur idx md bp
        = .error "Invalid right column type" := by
      unfold filter_contracts_arrow_native
      rw [if_neg h0, if_neg hidx, if_neg hmd, if_neg hbpor]
      simp only [hexpc, hexpa, hstrc, hstra, hmsc, hmsa, hrtc, hrta]
    rw [herr] at hok
    exact Except.noConfusion hok
  cases asStr_eq_some hrta
  by_cases hlnor : exps.length ≠ strikes.length ∨ exps.length ≠ mss.length ∨
      exps.length ≠ rts.length
  · exfalso
    have herr : filter_contracts_arrow_native batch cur idx md bp
        = .error "Array lengths are mismatched" := by
      unfold filter_contracts_arrow_native
      rw [if_neg h0, if_neg hidx, if_neg hmd, if_neg hbpor]
      simp only [hexpc, hexpa, hstrc, hstra, hmsc, hmsa, hrtc, hrta]
      rw [if_pos hlnor]
    rw [herr] at hok
    exact Except.noConfusion hok
  have hln2 := hlnor
  push_neg at hln2
  obtain ⟨hl1, hl2, hl3⟩ := hln2
  by_cases hlb : exps.length ≠ batch.numRows
  · exfalso
    have herr : filter_contracts_arrow_native batch cur idx md bp
        = .error "Array length does not match batch row count" := by
      unfold filter_contracts_arrow_native
      rw [if_neg h0, if_neg hidx, if_neg hmd, if_neg hbpor]
      simp only [hexpc, hexpa, hstrc, hstra, hmsc, hmsa, hrtc, hrta]
      rw [if_neg hlnor, if_pos hlb]
    rw [herr] at hok
    exact Except.noConfusion hok
  push_neg at hlb
  rw [filter_contracts_eval batch cur idx md bp exps strikes mss rts h0 hidx
    (by omega) hbp0 hbp1 hexpc hstrc hmsc hrtc hl1.symm hl2.symm hl3.symm hlb] at hok
  rcases ham : andMasks (filter_dte_arrow exps cur md)
      (moneyness_mask idx (strikes.map (fun s : Nat => (s : ℚ) * (1 / 10000)))
        (compute_dynamic_thresholds exps cur bp) mss rts) with e | fm
  · rw [ham] at hok
    exact Except.noConfusion hok
  · rw [ham] at hok
    exact ⟨hidx, by omega, hbp0, hbp1, exps, strikes, mss, rts, fm,
      rfl, rfl, rfl, rfl, hl1.symm, hl2.symm, hl3.symm, hlb, ham, hok⟩


lemma length_moneyness_mask (idx : PriceIndex) (ss : List ℚ) (ts : List ℝ)
    (ms : List Nat) (rs : List String)
    (h1 : ts.length = ss.length) (h2 : ms.length = ss.length)
    (h3 : rs.length = ss.length) :
    (moneyness_mask idx ss ts ms rs).length = ss.length := by
  induction ss generalizing ts ms rs with
  | nil => simp [moneyness_mask]
  | cons s ss ih =>
    rcases ts with _ | ⟨t, ts⟩
    · simp at h1
    rcases ms with _ | ⟨m, ms⟩
    · simp at h2
    rcases rs with _ | ⟨r, rs⟩
    · simp at h3
    simp only [moneyness_mask, List.length_cons]
    rw [ih ts ms rs (by simpa using h1) (by simpa using h2) (by simpa using h3)]

lemma andMasks_ok_of_length {a b : List Bool} (h : a.length = b.length) :
    andMasks a b = .ok (a.zipWith (fun x y => x && y) b) := by
  unfold andMasks
  rw [if_pos h]

lemma andMasks_ok_inv {a b : List Bool} {fm : List Bool}
    (h : andMasks a b = .ok fm) :
    a.length = b.length ∧ fm = a.zipWith (fun x y => x && y) b := by
  unfold andMasks at h
  by_cases hl : a.length = b.length
  · rw [if_pos hl] at h
    cases h
    exact ⟨hl, rfl⟩
  · rw [if_neg hl] at h
    exact Except.noConfusion h

lemma filter_record_batch_ok_of_wf {batch : RecordBatch} {mask : List Bool}
    (h : ∀ p ∈ batch.columns, Col.length p.2 = mask.length) :
    filter_record_batch batch mask
      = .ok ⟨mask.count true, batch.columns.map (fun p => (p.1, p.2.filterCol mask))⟩ := by
  unfold filter_record_batch
  rw [if_pos]
  rw [List.all_eq_true]
  intro p hp
  simpa using h p hp

lemma filter_record_batch_ok_inv {batch : RecordBatch} {mask : List Bool}
    {out : RecordBatch} (h : filter_record_batch batch mask = .ok out) :
    out = ⟨mask.count true, batch.columns.map (fun p => (p.1, p.2.filterCol mask))⟩ := by
  unfold filter_record_batch at h
  by_cases hc : batch.columns.all (fun p => Col.length p.2 = mask.length)
  · rw [if_pos hc] at h
    cases h
    rfl
  · rw [if_neg hc] at h
    exact Except.noConfusion h

lemma column_by_name_mem {b : RecordBatch} {n : String} {c : Col}
    (h : column_by_name b n = some c) : ∃ nm, (nm, c) ∈ b.columns := by
  unfold column_by_name at h
  rcases hf : b.columns.find? (fun p => p.1 = n) with _ | p
  · rw [hf] at h
    exact Option.noConfusion h
  · rw [hf] at h
    refine ⟨p.1, ?_⟩
    have hm := List.mem_of_find?_eq_some hf
    have : p.2 = c := by
      simpa using h
    rw [← this]
    simpa using hm

lemma getU32_length_of_wf {b : RecordBatch} (hwf : WellFormed b) {n : String}
    {xs : List Nat} (h : getU32 b n = some xs) : xs.length = b.numRows := by
  unfold getU32 at h
  rcases hc : column_by_name b n with _ | c
  · rw [hc] at h
    exact Option.noConfusion h
  · rw [hc] at h
    have h2 : c.asU32 = some xs := h
    cases asU32_eq_some h2
    obtain ⟨nm, hmem⟩ := column_by_name_mem hc
    simpa [Col.length] using hwf _ hmem

lemma getStr_length_of_wf {b : RecordBatch} (hwf : WellFormed b) {n : String}
    {xs : List String} (h : getStr b n = some xs) : xs.length = b.numRows := by
  unfold getStr at h
  rcases hc : column_by_name b n with _ | c
  · rw [hc] at h
    exact Option.noConfusion h
  · rw [hc] at h
    have h2 : c.asStr = some xs := h
    cases asStr_eq_some h2
    obtain ⟨nm, hmem⟩ := column_by_name_mem hc
    simpa [Col.length] using hwf _ hmem

/-- C4: a non-empty (well-formed) batch makes the filter fail exactly
when a precondition is violated: empty price index, non-positive
`max_dte`, `base_pct` outside (0, 1], a missing or mistyped required
column, or participating column lengths that do not all equal the batch
row count; otherwise the call succeeds, and an error produces no output
batch. -/
theorem filter_error_iff_precondition_violated (batch : RecordBatch) (cur : Date)
    (idx : PriceIndex) (md : Int) (bp : ℚ)
    (hwf : WellFormed batch) (h0 : ¬ batch.numRows = 0) :
    exceptIsOk (filter_contracts_arrow_native batch cur idx md bp) = false ↔
      (idx = [] ∨ md ≤ 0 ∨ bp ≤ 0 ∨ 1 < bp ∨
       getU32 batch "expiration" = none ∨ getU32 batch "strike" = none ∨
       getU32 batch "ms_of_day" = none ∨ getStr batch "right" = none ∨
       ¬ participatingLengthsOk batch) := by
  constructor
  · intro herr
    by_contra hnone
    push_neg at hnone
    obtain ⟨hidx, hmd, hbp0, hbp1, hexp, hstr, hms, hrt, hlen⟩ := hnone
    obtain ⟨exps, hexps⟩ := Option.ne_none_iff_exists'.mp hexp
    obtain ⟨strikes, hstrikes⟩ := Option.ne_none_iff_exists'.mp hstr
    obtain ⟨mss, hmss⟩ := Option.ne_none_iff_exists'.mp hms
    obtain ⟨rts, hrts⟩ := Option.ne_none_iff_exists'.mp hrt
    have hle : exps.length = batch.numRows := getU32_length_of_wf hwf hexps
    have hls : strikes.length = batch.numRows := getU32_length_of_wf hwf hstrikes
    have hlm : mss.length = batch.numRows := getU32_length_of_wf hwf hmss
    have hlr : rts.length = batch.numRows := getStr_length_of_wf hwf hrts
    have hexpc : column_by_name batch "expiration" = some (.u32 exps) := by
      unfold getU32 at hexps
      rcases hc : column_by_name batch "expiration" with _ | c
      · rw [hc] at hexps
        exact Option.noConfusion hexps
      · rw [hc] at hexps
        rw [asU32_eq_some (show c.asU32 = some exps from hexps)]
    have hstrc : column_by_name batch "strike" = some (.u32 strikes) := by
      unfold getU32 at hstrikes
      rcases hc : column_by_name batch "strike" with _ | c
      · rw [hc] at hstrikes
        exact Option.noConfusion hstrikes
      · rw [hc] at hstrikes
        rw [asU32_eq_some (show c.asU32 = some strikes from hstrikes)]
    have hmsc : column_by_name batch "ms_of_day" = some (.u32 mss) := by
      unfold getU32 at hmss
      rcases hc : column_by_name batch "ms_of_day" with _ | c
      · rw [hc] at hmss
        exact Option.noConfusion hmss
      · rw [hc] at hmss
        rw [asU32_eq_some (show c.asU32 = some mss from hmss)]
    have hrtc : column_by_name batch "right" = some (.str rts) := by
      unfold getStr at hrts
      rcases hc : column_by_name batch "right" with _ | c
      · rw [hc] at hrts
        exact Option.noConfusion hrts
      · rw [hc] at hrts
        rw [asStr_eq_some (show c.asStr = some rts from hrts)]
    have hlmon : (moneyness_mask idx (strikes.map (fun s : Nat => (s : ℚ) * (1 / 10000)))
        (compute_dynamic_thresholds exps cur bp) mss rts).length
        = (strikes.map (fun s : Nat => (s : ℚ) * (1 / 10000))).length := by
      apply length_moneyness_mask
      · rw [length_compute_dynamic_thresholds, List.length_map]
        omega
      · rw [List.length_map]
        omega
      · rw [List.length_map]
        omega
    have hlab : (filter_dte_arrow exps cur md).length
        = (moneyness_mask idx (strikes.map (fun s : Nat => (s : ℚ) * (1 / 10000)))
            (compute_dynamic_thresholds exps cur bp) mss rts).length := by
      rw [length_filter_dte_arrow, hlmon, List.length_map]
      omega
    have hsucc : ∃ o, filter_contracts_arrow_native batch cur idx md bp = .ok o := by
      rw [filter_contracts_eval batch cur idx md bp exps strikes mss rts h0 hidx
        (by omega) hbp0 hbp1 hexpc hstrc hmsc hrtc (by omega) (by omega) (by omega)
        hle]
      rw [andMasks_ok_of_length hlab]
      exact ⟨_, filter_record_batch_ok_of_wf (by
        intro p hp
        rw [hwf p hp, List.length_zipWith, length_filter_dte_arrow, hlmon,
          List.length_map]
        omega)⟩
    obtain ⟨o, ho⟩ := hsucc
    rw [ho] at herr
    exact Bool.noConfusion herr
  · intro hcond
    rcases hfilter : filter_contracts_arrow_native batch cur idx md bp with e | o
    · rfl
    · exfalso
      obtain ⟨hidx, hmd, hbp0, hbp1, exps, strikes, mss, rts, fm,
        hexpc, hstrc, hmsc, hrtc, hl1, hl2, hl3, hlb, ham, hfrb⟩ :=
        filter_contracts_ok_inv batch cur idx md bp o h0 hfilter
      have hgexp : getU32 batch "expiration" = some exps := by
        unfold getU32
        rw [hexpc]
        rfl
      have hgstr : getU32 batch "strike" = some strikes := by
        unfold getU32
        rw [hstrc]
        rfl
      have hgms : getU32 batch "ms_of_day" = some mss := by
        unfold getU32
        rw [hmsc]
        rfl
      have hgrt : getStr batch "right" = some rts := by
        unfold getStr
        rw [hrtc]
        rfl
      rcases hcond with h | h | h | h | h | h | h | h | h
      · exact hidx h
      · omega
      · exact absurd h (by push_neg; exact hbp0)
      · exact absurd h (by push_neg; exact hbp1)
      · rw [hgexp] at h
        exact Option.noConfusion h
      · rw [hgstr] at h
        exact Option.noConfusion h
      · rw [hgms] at h
        exact Option.noConfusion h
      · rw [hgrt] at h
        exact Option.noConfusion h
      · refine h ⟨?_, ?_, ?_, ?_⟩
        · intro xs hxs
          rw [hgexp] at hxs
          cases hxs
          exact hlb
        · intro xs hxs
          rw [hgstr] at hxs
          cases hxs
          omega
        · intro xs hxs
          rw [hgms] at hxs
          cases hxs
          omega
        · intro xs hxs
          rw [hgrt] at hxs
          cases hxs
          omega

theorem filter_error_iff_witness :
    exceptIsOk (filter_contracts_arrow_native scenBatch scenDate [] 30 (1/10)) = false :=
  (filter_error_iff_precondition_violated scenBatch scenDate [] 30 (1/10)
    (by decide) (by decide)).mpr (Or.inl rfl)


lemma filterList_nil_mask {α : Type} (xs : List α) : filterList xs [] = [] := by
  unfold filterList
  simp

lemma filterList_cons {α : Type} (a : α) (xs : List α) (b : Bool) (mask : List Bool) :
    filterList (a :: xs) (b :: mask)
      = if b then a :: filterList xs mask else filterList xs mask := by
  unfold filterList
  rw [List.zip_cons_cons, List.filter_cons]
  cases b
  · simp
  · simp

lemma find?_map_snd (cols : List (String × Col)) (f : Col → Col) (n : String) :
    (cols.map (fun p => (p.1, f p.2))).find? (fun p => p.1 = n)
      = (cols.find? (fun p => p.1 = n)).map (fun p => (p.1, f p.2)) := by
  induction cols with
  | nil => rfl
  | cons hd tl ih =>
    rw [List.map_cons, List.find?_cons, List.find?_cons]
    by_cases h : hd.1 = n
    · rw [decide_eq_true (show (hd.1, f hd.2).1 = n from h)]
      rfl
    · rw [decide_eq_false (show ¬ (hd.1, f hd.2).1 = n from h)]
      exact ih

lemma column_by_name_mk_map (nr : Nat) (cols : List (String × Col)) (f : Col → Col)
    (name : String) :
    column_by_name ⟨nr, cols.map (fun p => (p.1, f p.2))⟩ name
      = (cols.find? (fun p => p.1 = name)).map (fun p => f p.2) := by
  unfold column_by_name
  rw [show (RecordBatch.mk nr (cols.map (fun p => (p.1, f p.2)))).columns
    = cols.map (fun p => (p.1, f p.2)) from rfl]
  rw [find?_map_snd]
  cases cols.find? (fun p => p.1 = name) with
  | none => rfl
  | some q => rfl

lemma column_by_name_filterCol (nr : Nat) (cols : List (String × Col))
    (mask : List Bool) (name : String) :
    column_by_name ⟨nr, cols.map (fun p => (p.1, p.2.filterCol mask))⟩ name
      = (cols.find? (fun p => p.1 = name)).map (fun p => p.2.filterCol mask) :=
  column_by_name_mk_map nr cols (fun c => c.filterCol mask) name

lemma not_mem_U_filterList (idx : PriceIndex) :
    ∀ (rs : List String) (dm : List Bool) (ss : List ℚ) (ts : List ℝ) (ms : List Nat),
      ¬ "U" ∈ filterList rs (dm.zipWith (fun x y => x && y) (moneyness_mask idx ss ts ms rs)) := by
  intro rs
  induction rs with
  | nil =>
    intro dm ss ts ms
    unfold filterList
    simp
  | cons r rs ih =>
    intro dm ss ts ms
    rcases dm with _ | ⟨b, dm⟩
    · simp [filterList]
    rcases ss with _ | ⟨s, ss⟩
    · simp [moneyness_mask, filterList_nil_mask]
    rcases ts with _ | ⟨t, ts⟩
    · simp [moneyness_mask, filterList_nil_mask]
    rcases ms with _ | ⟨m, ms⟩
    · simp [moneyness_mask, filterList_nil_mask]
    simp only [moneyness_mask, List.zipWith_cons_cons]
    rw [filterList_cons]
    by_cases hr : r = "U"
    · subst hr
      rw [mrowU, Bool.and_false, if_neg (by simp)]
      exact ih dm ss ts ms
    · by_cases hx : (b && moneyness_row idx s t m r) = true
      · rw [if_pos hx]
        intro hmem
        rcases List.mem_cons.mp hmem with h | h
        · exact hr h.symm
        · exact ih dm ss ts ms h
      · rw [if_neg hx]
        exact ih dm ss ts ms

/-- C5: a row whose `right` column equals "U" never appears in a
successfully filtered output batch, whatever the batch contents, the
price index, and the filter arguments are. -/
theorem no_underlying_row_in_output (batch : RecordBatch) (cur : Date)
    (idx : PriceIndex) (md : Int) (bp : ℚ) (out : RecordBatch)
    (hwf : WellFormed batch)
    (hok : filter_contracts_arrow_native batch cur idx md bp = .ok out) :
    ∀ rs, getStr out "right" = some rs → ¬ "U" ∈ rs := by
  intro rs hrs
  by_cases h0 : batch.numRows = 0
  · have hout : out = batch := by
      unfold filter_contracts_arrow_native at hok
      rw [if_pos h0] at hok
      injection hok with h
      exact h.symm
    subst hout
    have hlen := getStr_length_of_wf hwf hrs
    rw [h0] at hlen
    rw [List.eq_nil_of_length_eq_zero hlen]
    simp
  · obtain ⟨-, -, -, -, exps, strikes, mss, rts, fm, hexpc, hstrc, hmsc, hrtc,
      hl1, hl2, hl3, hlb, ham, hfrb⟩ :=
      filter_contracts_ok_inv batch cur idx md bp out h0 hok
    obtain ⟨-, hfm⟩ := andMasks_ok_inv ham
    have hout := filter_record_batch_ok_inv hfrb
    have hcbn : column_by_name out "right" = some ((Col.str rts).filterCol fm) := by
      unfold column_by_name at hrtc
      rcases hq : batch.columns.find? (fun p => p.1 = "right") with _ | q
      · rw [hq] at hrtc
        exact Option.noConfusion hrtc
      · rw [hq] at hrtc
        have hq2 : q.2 = Col.str rts := by
          simpa using hrtc
        rw [hout, column_by_name_filterCol, hq]
        simp [hq2]
    have hrs2 : rs = filterList rts fm := by
      unfold getStr at hrs
      rw [hcbn] at hrs
      have : Col.asStr ((Col.str rts).filterCol fm) = some (filterList rts fm) := rfl
      rw [show (some ((Col.str rts).filterCol fm)).bind Col.asStr
        = some (filterList rts fm) from this] at hrs
      injection hrs with h
      exact h.symm
    rw [hrs2, hfm]
    exact not_mem_U_filterList idx rts (filter_dte_arrow exps cur md)
      (strikes.map (fun s : Nat => (s : ℚ) * (1 / 10000)))
      (compute_dynamic_thresholds exps cur bp) mss

theorem no_underlying_row_in_output_witness :
    ¬ "U" ∈ ["C", "C", "C"] :=
  no_underlying_row_in_output scenBatch scenDate scenIdx 30 (1/10) scenOut
    (by decide) scen_filter_eval ["C", "C", "C"] (by decide)

end Betedge
